import Mathlib

/-!
Shallow embedding of the UNO room & turn engine (the server part of
`src/public/game.js`).  Pure data is modelled directly; the socket layer is
dropped and each socket handler becomes a function from a `Room` (plus the
action's payload) to the updated `Room` together with a result describing
which event the handler would have emitted.  The JavaScript `Math.random`
stream is modelled as an explicit function `rand : Nat → Nat` supplying the
random choices, and `setTimeout` handles are modelled by the Boolean field
`catchTimeout` (`true` while a catch-window timer is pending).
-/

namespace UNO

inductive Color where
  | red | blue | green | yellow | wild
  deriving DecidableEq

inductive Value where
  | num (n : Nat)
  | skip
  | reverse
  | draw2
  | wild
  | wild_draw4
  deriving DecidableEq

structure Card where
  color : Color
  value : Value
  id : Nat
  deriving DecidableEq

structure Player where
  id : Nat
  name : String
  cards : List Card
  isHost : Bool
  saidUno : Bool
  canBeCaught : Bool
  catchTimeout : Bool
  deriving DecidableEq

structure Room where
  code : String
  players : List Player
  deck : List Card
  discardPile : List Card
  currentPlayerIndex : Nat
  direction : Int
  chosenColor : Option Color
  gameStarted : Bool
  winner : Option Player
  deriving DecidableEq

/-- Swap the entries at positions `i` and `j` of a list (used by the
Fisher-Yates shuffle); out-of-range indices leave the list unchanged. -/
def swapList (l : List Card) (i j : Nat) : List Card :=
  match l.get? i, l.get? j with
  | some x, some y => (l.set i y).set j x
  | _, _ => l

/-- The Fisher-Yates loop of `shuffleDeck`: for `i` from the last index down
to 1, swap position `i` with position `rand i % (i+1)`. -/
def fyLoop (rand : Nat → Nat) : Nat → List Card → List Card
  | 0, l => l
  | i + 1, l => fyLoop rand i (swapList l (i + 1) (rand (i + 1) % (i + 2)))

/-- `shuffleDeck` from game.js with the random choices supplied by `rand`. -/
def shuffleDeck (rand : Nat → Nat) (deck : List Card) : List Card :=
  fyLoop rand (deck.length - 1) deck

/-- The reshuffle step at the top of the `drawCards` loop body: when the
deck is exhausted, every discard but the top card is shuffled back into the
deck and the top card becomes the sole discard. -/
def reshuffleIfNeeded (rand : Nat → Nat) (room : Room) : Room :=
  if room.deck.length = 0 then
    match room.discardPile.getLast? with
    | some top =>
      { room with deck := shuffleDeck rand room.discardPile.dropLast,
                  discardPile := [top] }
    | none => room
  else room

/-- One iteration of the `drawCards` loop body: reshuffle if needed, then
pop the top (last) card of the deck when one exists. -/
def drawOne (rand : Nat → Nat) (room : Room) : Option Card × Room :=
  let room1 := reshuffleIfNeeded rand room
  match room1.deck.getLast? with
  | some c => (some c, { room1 with deck := room1.deck.dropLast })
  | none => (none, room1)

/-- `drawCards(room, count)` from game.js: pop up to `count` cards from the
top (end) of the deck, reshuffling the discard pile minus its top card back
into the deck whenever the deck is empty.  Returns the drawn cards in draw
order together with the updated room. -/
def drawCards (rand : Nat → Nat) (room : Room) : Nat → List Card × Room
  | 0 => ([], room)
  | n + 1 =>
    match drawOne rand room with
    | (some c, room1) =>
      let res := drawCards rand room1 n
      (c :: res.1, res.2)
    | (none, room1) => drawCards rand room1 n

/-- `canPlayCard(card, topCard, chosenColor)` from game.js. -/
def canPlayCard (card topCard : Card) (chosenColor : Option Color) : Bool :=
  if card.color = Color.wild then true
  else if card.color = chosenColor.getD topCard.color then true
  else if card.value = topCard.value then true
  else false

/-- `getNextPlayer(room)` from game.js:
`(currentIndex + direction + playerCount) % playerCount`. -/
def getNextPlayer (room : Room) : Nat :=
  (((room.currentPlayerIndex : Int) + room.direction + (room.players.length : Int))
      % (room.players.length : Int)).toNat

/-- The character set used by `generateRoomCode`. -/
def codeChars : List Char :=
  "ABCDEFGHIJKLMNOPQRSTUVWXYZ0123456789".toList

/-- `generateRoomCode()` from game.js: six characters chosen from
`codeChars` by the random stream.  Note that it takes no registry argument:
the generated code is not collision-checked. -/
def generateRoomCode (rand : Nat → Nat) : String :=
  String.mk (((List.range 6).map fun i => codeChars.getD (rand i % 36) 'A'))

/-- The non-zero colored values (`VALUES.slice(1)` in game.js). -/
def coloredValues : List Value :=
  [Value.num 1, Value.num 2, Value.num 3, Value.num 4, Value.num 5,
   Value.num 6, Value.num 7, Value.num 8, Value.num 9,
   Value.skip, Value.reverse, Value.draw2]

/-- The four card colors (`COLORS` in game.js). -/
def deckColors : List Color :=
  [Color.red, Color.blue, Color.green, Color.yellow]

/-- The 108-card blueprint built by `createDeck` before ids and shuffling:
per color one 0 and two each of 1-9/skip/reverse/draw2, then four wilds and
four wild-draw-fours. -/
def deckBlueprint : List (Color × Value) :=
  (deckColors.flatMap fun c =>
    (c, Value.num 0) :: (coloredValues.flatMap fun v => [(c, v), (c, v)])) ++
  ((List.range 4).flatMap fun _ =>
    [(Color.wild, Value.wild), (Color.wild, Value.wild_draw4)])

/-- `createDeck()` from game.js; the uuid card ids are modelled as the
card's position in the blueprint. -/
def createDeck (rand : Nat → Nat) : List Card :=
  shuffleDeck rand (deckBlueprint.enum.map fun p => ⟨p.2.1, p.2.2, p.1⟩)

/-- An association-list model of the global `rooms` `Map`: `Map.get`. -/
def roomsGet (rooms : List (String × Room)) (code : String) : Option Room :=
  (rooms.find? fun kv => kv.1 == code).map fun kv => kv.2

/-- An association-list model of the global `rooms` `Map`: `Map.set`
(replaces the binding when the key is present, appends otherwise). -/
def roomsSet (rooms : List (String × Room)) (code : String) (r : Room) :
    List (String × Room) :=
  if rooms.any fun kv => kv.1 == code then
    rooms.map fun kv => if kv.1 == code then (code, r) else kv
  else rooms ++ [(code, r)]

/-- The fresh player record built by the `createRoom` / `joinRoom`
handlers. -/
def newPlayer (socketId : Nat) (playerName : String) (host : Bool) : Player :=
  { id := socketId, name := playerName, cards := [], isHost := host,
    saidUno := false, canBeCaught := false, catchTimeout := false }

/-- The `createRoom` handler: generates a code (with no collision check),
builds the lobby-phase room with the creator as sole host player, and stores
it in the registry.  Returns the updated registry and the allocated code. -/
def createRoom (rand : Nat → Nat) (rooms : List (String × Room))
    (socketId : Nat) (playerName : String) : List (String × Room) × String :=
  let roomCode := generateRoomCode rand
  let room : Room :=
    { code := roomCode, players := [newPlayer socketId playerName true],
      deck := [], discardPile := [], currentPlayerIndex := 0, direction := 1,
      chosenColor := none, gameStarted := false, winner := none }
  (roomsSet rooms roomCode room, roomCode)

inductive JoinResult where
  | roomNotFound
  | gameInProgress
  | roomFull
  | joined
  deriving DecidableEq

/-- The `joinRoom` handler acting on the registry. -/
def joinRoom (rooms : List (String × Room)) (roomCode : String)
    (socketId : Nat) (playerName : String) :
    List (String × Room) × JoinResult :=
  match roomsGet rooms roomCode.toUpper with
  | none => (rooms, JoinResult.roomNotFound)
  | some room =>
    if room.gameStarted then (rooms, JoinResult.gameInProgress)
    else if 10 ≤ room.players.length then (rooms, JoinResult.roomFull)
    else
      let room1 :=
        { room with players := room.players ++ [newPlayer socketId playerName false] }
      (roomsSet rooms roomCode.toUpper room1, JoinResult.joined)

/-- The loop that flips the first card in `startGame`: pop from the top of
the deck, and while the popped card is wild push it back at the bottom
(`unshift`).  `fuel` bounds the number of iterations (the JavaScript loop
runs unboundedly; it terminates whenever the deck holds a non-wild card). -/
def popFirstNonWild : Nat → List Card → Option (Card × List Card)
  | 0, _ => none
  | fuel + 1, deck =>
    match deck.getLast? with
    | none => none
    | some c =>
      if c.color = Color.wild then popFirstNonWild fuel (c :: deck.dropLast)
      else some (c, deck.dropLast)

/-- The dealing loop of `startGame`: each player in order is given 7 cards
drawn from the deck (their hand is replaced, as in game.js). -/
def dealLoop (rand : Nat → Nat) : Nat → Nat → Room → Room
  | 0, _, room => room
  | n + 1, i, room =>
    let res := drawCards rand room 7
    let room2 :=
      match res.2.players.get? i with
      | some p => { res.2 with players := res.2.players.set i { p with cards := res.1 } }
      | none => res.2
    dealLoop rand n (i + 1) room2

inductive StartResult where
  | notHost
  | notEnoughPlayers
  | started
  | stuck
  deriving DecidableEq

/-- The `startGame` handler on a single room (the room lookup of the
registry is done by the caller).  `stuck` models the degenerate case where
the first-card loop finds no non-wild card. -/
def startGame (rand : Nat → Nat) (room : Room) (actorId : Nat) :
    Room × StartResult :=
  match room.players.find? fun p => p.id == actorId with
  | none => (room, StartResult.notHost)
  | some player =>
    if ¬ player.isHost then (room, StartResult.notHost)
    else if room.players.length < 2 then (room, StartResult.notEnoughPlayers)
    else
      let room1 := { room with deck := createDeck rand, gameStarted := true,
                               currentPlayerIndex := 0, direction := 1 }
      let room2 := dealLoop rand room1.players.length 0 room1
      match popFirstNonWild (room2.deck.length + 1) room2.deck with
      | none => (room2, StartResult.stuck)
      | some fc =>
        let room3 := { room2 with deck := fc.2,
                                  discardPile := room2.discardPile ++ [fc.1] }
        let room4 :=
          if fc.1.value = Value.skip then
            { room3 with currentPlayerIndex := getNextPlayer room3 }
          else if fc.1.value = Value.reverse then
            { room3 with direction := -room3.direction }
          else if fc.1.value = Value.draw2 then
            match room3.players.get? 0 with
            | some p0 =>
              let res := drawCards rand room3 2
              let room3a :=
                { res.2 with players := res.2.players.set 0 { p0 with cards := p0.cards ++ res.1 } }
              { room3a with currentPlayerIndex := getNextPlayer room3a }
            | none => room3
          else room3
        (room4, StartResult.started)

inductive PlayResult where
  | noRoom
  | notYourTurn
  | cardNotFound
  | invalidCard
  | internalFault
  | gameOver (winnerId : Nat)
  | ok
  deriving DecidableEq

/-- The forced-draw part of the draw-two / wild-draw-four branches of the
`playCard` handler: advance `currentPlayerIndex` to the next player, who
then draws `n` cards. -/
def forceDraw (rand : Nat → Nat) (room : Room) (n : Nat) : Room :=
  let idx := getNextPlayer room
  let room1 := { room with currentPlayerIndex := idx }
  match room1.players.get? idx with
  | none => room1
  | some victim =>
    let res := drawCards rand room1 n
    { res.2 with players := res.2.players.set idx { victim with cards := victim.cards ++ res.1 } }

/-- The special-card handling and turn advance at the end of the `playCard`
handler (game.js lines 761-788): compute the `skipNext` flag and its
side effects, then advance once, and once more when `skipNext` is set. -/
def playCardSpecial (rand : Nat → Nat) (room : Room) (card : Card) :
    Room × PlayResult :=
  let step :=
    match card.value with
    | Value.skip => (room, true)
    | Value.reverse =>
      ({ room with direction := -room.direction }, room.players.length = 2)
    | Value.draw2 => (forceDraw rand room 2, true)
    | Value.wild_draw4 => (forceDraw rand room 4, true)
    | _ => (room, false)
  let room2 := { step.1 with currentPlayerIndex := getNextPlayer step.1 }
  let room3 :=
    if step.2 then { room2 with currentPlayerIndex := getNextPlayer room2 }
    else room2
  (room3, PlayResult.ok)

/-- The mutating tail of the `playCard` handler, entered once every
validation has passed: remove the card from the hand, push it on the
discard pile, store the payload's chosen color, then either finish the game
(empty hand) or run the UNO-vulnerability logic, the `saidUno` reset and the
special-card handling. -/
def playCardApply (rand : Nat → Nat) (room : Room) (playerIndex : Nat)
    (player : Player) (ci : Nat) (card : Card) (chosen : Option Color) :
    Room × PlayResult :=
  let newCards := player.cards.eraseIdx ci
  let player1 := { player with cards := newCards }
  let room1 := { room with players := room.players.set playerIndex player1,
                           discardPile := room.discardPile ++ [card],
                           chosenColor := chosen }
  if newCards.length = 0 then
    ({ room1 with winner := some player1, gameStarted := false,
                  players := room1.players.map fun p => { p with catchTimeout := false } },
     PlayResult.gameOver player1.id)
  else
    let player2 :=
      if newCards.length = 1 ∧ player1.saidUno = false then
        { player1 with saidUno := false, canBeCaught := true, catchTimeout := true }
      else { player1 with saidUno := false }
    let room2 := { room1 with players := room1.players.set playerIndex player2 }
    playCardSpecial rand room2 card

inductive PlayCheck where
  | fail (e : PlayResult)
  | go (player : Player) (ci : Nat) (card : Card)
  deriving DecidableEq

/-- The validation chain of the `playCard` handler (game.js lines 687-710),
performed before any mutation: the game must be running, the actor must be
the current player, the card must be in their hand, and it must legally
match the top of the discard pile under the declared color.  When every
check passes it hands the resolved player, card index and card to
`playCardApply`; after the turn-ownership check passes, the actor's index
equals `currentPlayerIndex`, which is therefore used to index the hand. -/
def playCardCheck (room : Room) (actorId cardId : Nat) : PlayCheck :=
  if room.gameStarted = false then PlayCheck.fail PlayResult.noRoom
  else if (room.players.findIdx fun p => p.id == actorId) ≠ room.currentPlayerIndex then
    PlayCheck.fail PlayResult.notYourTurn
  else
    match room.players.get? room.currentPlayerIndex with
    | none => PlayCheck.fail PlayResult.notYourTurn
    | some player =>
      match player.cards.findIdx? fun c => c.id == cardId with
      | none => PlayCheck.fail PlayResult.cardNotFound
      | some ci =>
        match player.cards.get? ci with
        | none => PlayCheck.fail PlayResult.cardNotFound
        | some card =>
          match room.discardPile.getLast? with
          | none => PlayCheck.fail PlayResult.internalFault
          | some top =>
            if canPlayCard card top room.chosenColor = false then
              PlayCheck.fail PlayResult.invalidCard
            else PlayCheck.go player ci card

/-- The `playCard` handler (game.js lines 687-812) on a single room. -/
def playCard (rand : Nat → Nat) (room : Room) (actorId : Nat) (cardId : Nat)
    (chosen : Option Color) : Room × PlayResult :=
  match playCardCheck room actorId cardId with
  | PlayCheck.fail e => (room, e)
  | PlayCheck.go player ci card =>
    playCardApply rand room room.currentPlayerIndex player ci card chosen

inductive DrawActionResult where
  | noRoom
  | notYourTurn
  | drew (canPlay : Bool)
  deriving DecidableEq

/-- The `drawCard` handler (game.js lines 815-860) on a single room. -/
def drawCardAction (rand : Nat → Nat) (room : Room) (actorId : Nat) :
    Room × DrawActionResult :=
  if room.gameStarted = false then (room, DrawActionResult.noRoom)
  else
    let playerIndex := room.players.findIdx fun p => p.id == actorId
    if playerIndex ≠ room.currentPlayerIndex then (room, DrawActionResult.notYourTurn)
    else
      match room.players.get? playerIndex with
      | none => (room, DrawActionResult.notYourTurn)
      | some player =>
        let res := drawCards rand room 1
        let player1 := { player with cards := player.cards ++ res.1 }
        let room2 := { res.2 with players := res.2.players.set playerIndex player1 }
        let canPlay :=
          match res.1.head?, room2.discardPile.getLast? with
          | some c, some top => canPlayCard c top room2.chosenColor
          | _, _ => false
        if canPlay = false then
          ({ room2 with currentPlayerIndex := getNextPlayer room2, chosenColor := none },
           DrawActionResult.drew false)
        else (room2, DrawActionResult.drew true)

/-- The `sayUno` handler (game.js lines 863-888): with at most two cards in
hand, set `saidUno`, and when already catchable clear the vulnerability flag
and cancel the pending timer.  The Boolean result records whether an
`unoSaid` event was emitted. -/
def sayUno (room : Room) (actorId : Nat) : Room × Bool :=
  if room.gameStarted = false then (room, false)
  else
    match room.players.findIdx? fun p => p.id == actorId with
    | none => (room, false)
    | some i =>
      match room.players.get? i with
      | none => (room, false)
      | some player =>
        if player.cards.length ≤ 2 then
          let p1 := { player with saidUno := true }
          let p2 :=
            if p1.canBeCaught then { p1 with canBeCaught := false, catchTimeout := false }
            else p1
          ({ room with players := room.players.set i p2 }, true)
        else (room, false)

/-- The callback of the 5-second `setTimeout` armed by `playCard`: clears
the vulnerability flag and drops the timer handle of the given player. -/
def catchTimerFires (room : Room) (playerId : Nat) : Room :=
  match room.players.findIdx? fun p => p.id == playerId with
  | none => room
  | some i =>
    match room.players.get? i with
    | none => room
    | some p =>
      { room with players := room.players.set i { p with canBeCaught := false, catchTimeout := false } }

inductive CatchResult where
  | noRoom
  | playerNotFound
  | selfCatch
  | caught
  | tooLate
  deriving DecidableEq

/-- The `catchUno` handler (game.js lines 891-966) on a single room. -/
def catchUno (rand : Nat → Nat) (room : Room) (actorId targetId : Nat) :
    Room × CatchResult :=
  if room.gameStarted = false then (room, CatchResult.noRoom)
  else
    match room.players.find? fun p => p.id == actorId,
          room.players.findIdx? fun p => p.id == targetId with
    | some catcher, some ti =>
      match room.players.get? ti with
      | none => (room, CatchResult.playerNotFound)
      | some target =>
        if catcher.id = target.id then (room, CatchResult.selfCatch)
        else if target.canBeCaught = true ∧ target.cards.length = 1 then
          let target1 := { target with canBeCaught := false, catchTimeout := false }
          let room1 := { room with players := room.players.set ti target1 }
          let res := drawCards rand room1 2
          ({ res.2 with players := res.2.players.set ti { target1 with cards := target1.cards ++ res.1 } },
           CatchResult.caught)
        else (room, CatchResult.tooLate)
    | _, _ => (room, CatchResult.playerNotFound)

/-- The `disconnect` handler (game.js lines 983-1029) on a single room:
remove the player, possibly destroy the room (`none`), promote a new host,
clamp `currentPlayerIndex`, and cancel the game when fewer than two players
remain.  The removed player's record is returned unchanged: in particular
the handler never touches their `catchTimeout` timer. -/
def handleDisconnect (room : Room) (actorId : Nat) : Option Room × Option Player :=
  match room.players.findIdx? fun p => p.id == actorId with
  | none => (some room, none)
  | some i =>
    match room.players.get? i with
    | none => (some room, none)
    | some player =>
      let rest := room.players.eraseIdx i
      if rest.length = 0 then (none, some player)
      else
        let rest1 :=
          if player.isHost then
            match rest with
            | [] => rest
            | p :: ps => { p with isHost := true } :: ps
          else rest
        let idx :=
          if room.gameStarted = true ∧ rest1.length ≤ room.currentPlayerIndex then 0
          else room.currentPlayerIndex
        let started :=
          if room.gameStarted = true ∧ rest1.length < 2 then false
          else room.gameStarted
        (some { room with players := rest1, currentPlayerIndex := idx,
                          gameStarted := started },
         some player)

/-- Verification device: two rooms agree on everything except the deck and
discard pile (the only fields `drawCards` may change). -/
def seatsEq (r1 r2 : Room) : Prop :=
  r1.players = r2.players ∧ r1.currentPlayerIndex = r2.currentPlayerIndex ∧
  r1.direction = r2.direction ∧ r1.chosenColor = r2.chosenColor ∧
  r1.gameStarted = r2.gameStarted ∧ r1.winner = r2.winner

/-! Concrete fixtures used to evaluate the handlers on specific inputs. -/

/-- A fixed random stream (every choice is 0). -/
def r0 : Nat → Nat := fun _ => 0

def mkCard (c : Color) (v : Value) (i : Nat) : Card := ⟨c, v, i⟩

def pA : Player :=
  { id := 1, name := "A", cards := [mkCard Color.green Value.draw2 10, mkCard Color.red (Value.num 3) 11],
    isHost := true, saidUno := false, canBeCaught := false, catchTimeout := false }

def pB : Player :=
  { id := 2, name := "B", cards := [mkCard Color.blue (Value.num 1) 20, mkCard Color.blue (Value.num 2) 21],
    isHost := false, saidUno := false, canBeCaught := false, catchTimeout := false }

def pC : Player :=
  { id := 3, name := "C", cards := [mkCard Color.yellow (Value.num 1) 30, mkCard Color.yellow (Value.num 2) 31],
    isHost := false, saidUno := false, canBeCaught := false, catchTimeout := false }

def pD : Player :=
  { id := 4, name := "D", cards := [mkCard Color.red (Value.num 4) 40],
    isHost := false, saidUno := false, canBeCaught := false, catchTimeout := false }

/-- Three-player in-progress room where player A (the current player) holds
a green draw-two matching the green top card. -/
def roomC1 : Room :=
  { code := "R", players := [pA, pB, pC],
    deck := [mkCard Color.red (Value.num 7) 90, mkCard Color.red (Value.num 8) 91,
             mkCard Color.red (Value.num 9) 92],
    discardPile := [mkCard Color.green (Value.num 5) 80],
    currentPlayerIndex := 0, direction := 1, chosenColor := none,
    gameStarted := true, winner := none }

/-- Player A holding a reverse card instead. -/
def pArev : Player :=
  { pA with cards := [mkCard Color.green Value.reverse 10, mkCard Color.red (Value.num 3) 11] }

/-- Two-player in-progress room where A holds a playable reverse. -/
def roomC6 : Room :=
  { roomC1 with players := [pArev, pB],
                discardPile := [mkCard Color.green (Value.num 5) 80] }

/-- Player A with a single playable card. -/
def pAwin : Player := { pA with cards := [mkCard Color.green Value.draw2 10] }

/-- Player B vulnerable (flag set, timer pending) with one card. -/
def pBvuln1 : Player :=
  { pB with canBeCaught := true, catchTimeout := true,
            cards := [mkCard Color.blue (Value.num 1) 20] }

/-- Player B vulnerable (flag set, timer pending) with three cards. -/
def pBvuln3 : Player :=
  { pB with canBeCaught := true, catchTimeout := true,
            cards := [mkCard Color.blue (Value.num 1) 20, mkCard Color.blue (Value.num 2) 21,
                      mkCard Color.blue (Value.num 3) 22] }

/-- Room where the current player A is about to win while B is vulnerable. -/
def roomC2 : Room := { roomC1 with players := [pAwin, pBvuln1, pC] }

/-- Room with a vulnerable three-card player B. -/
def roomC4 : Room := { roomC1 with players := [pA, pBvuln3, pC] }

/-- Room with a vulnerable one-card player B. -/
def roomC4b : Room := { roomC1 with players := [pA, pBvuln1, pC] }

/-- Four-player in-progress room with `currentPlayerIndex = 2`. -/
def roomC5 : Room := { roomC1 with players := [pA, pB, pC, pD], currentPlayerIndex := 2 }

/-- Room with a vulnerable one-card player B (who then disconnects). -/
def roomC3 : Room := { roomC1 with players := [pA, pBvuln1, pC] }

/-- An already-registered room whose code is the one `generateRoomCode r0`
produces. -/
def dummyRoom : Room :=
  { code := "AAAAAA", players := [], deck := [], discardPile := [],
    currentPlayerIndex := 0, direction := 1, chosenColor := none,
    gameStarted := true, winner := none }

/-- A registry already containing the code that `generateRoomCode r0`
will produce. -/
def rooms0 : List (String × Room) := [("AAAAAA", dummyRoom)]

/-! Claim theorems and their supporting lemmas. -/

theorem get?_some_lt {α : Type} {l : List α} {i : Nat} {x : α}
    (h : l.get? i = some x) : i < l.length := by
  rw [List.get?_eq_getElem?] at h
  exact (List.getElem?_eq_some_iff.mp h).1

theorem get?_set_self {α : Type} (l : List α) (i : Nat) (a : α)
    (h : i < l.length) : (l.set i a).get? i = some a := by
  rw [List.get?_eq_getElem?]
  exact List.getElem?_set_self h

theorem get?_set_of_ne {α : Type} (l : List α) (i j : Nat) (a : α)
    (h : i ≠ j) : (l.set i a).get? j = l.get? j := by
  rw [List.get?_eq_getElem?, List.get?_eq_getElem?]
  exact List.getElem?_set_ne h

theorem seatsEq_refl (r : Room) : seatsEq r r :=
  ⟨rfl, rfl, rfl, rfl, rfl, rfl⟩

theorem seatsEq_trans {r1 r2 r3 : Room} (h1 : seatsEq r1 r2) (h2 : seatsEq r2 r3) :
    seatsEq r1 r3 := by
  obtain ⟨a1, b1, c1, d1, e1, f1⟩ := h1
  obtain ⟨a2, b2, c2, d2, e2, f2⟩ := h2
  exact ⟨a1.trans a2, b1.trans b2, c1.trans c2, d1.trans d2, e1.trans e2, f1.trans f2⟩

theorem reshuffleIfNeeded_seats (rand : Nat → Nat) (room : Room) :
    seatsEq (reshuffleIfNeeded rand room) room := by
  unfold reshuffleIfNeeded
  split
  · split
    · exact ⟨rfl, rfl, rfl, rfl, rfl, rfl⟩
    · exact seatsEq_refl room
  · exact seatsEq_refl room

theorem drawOne_seats (rand : Nat → Nat) (room : Room) :
    seatsEq (drawOne rand room).2 room := by
  have h := reshuffleIfNeeded_seats rand room
  simp only [drawOne]
  split
  · exact h
  · exact h

theorem drawCards_seats (rand : Nat → Nat) :
    ∀ (n : Nat) (room : Room), seatsEq (drawCards rand room n).2 room
  | 0, room => seatsEq_refl room
  | n + 1, room => by
    unfold drawCards
    split
    · rename_i c room1 heq
      have h1 : seatsEq room1 room := by
        have := drawOne_seats rand room
        rw [heq] at this
        exact this
      exact seatsEq_trans (drawCards_seats rand n room1) h1
    · rename_i room1 heq
      have h1 : seatsEq room1 room := by
        have := drawOne_seats rand room
        rw [heq] at this
        exact this
      exact seatsEq_trans (drawCards_seats rand n room1) h1

theorem drawOne_of_deck_ne_nil (rand : Nat → Nat) (room : Room)
    (h : room.deck ≠ []) :
    ∃ c, drawOne rand room = (some c, { room with deck := room.deck.dropLast }) := by
  have hlen : ¬ room.deck.length = 0 := fun hl => h (List.length_eq_zero.mp hl)
  cases hc : room.deck.getLast? with
  | none => exact absurd (List.getLast?_eq_none_iff.mp hc) h
  | some c =>
    refine ⟨c, ?_⟩
    simp only [drawOne, reshuffleIfNeeded, if_neg hlen, hc]

theorem drawCards_length (rand : Nat → Nat) :
    ∀ (n : Nat) (room : Room), n ≤ room.deck.length →
      (drawCards rand room n).1.length = n
  | 0, _, _ => rfl
  | n + 1, room, h => by
    have hne : room.deck ≠ [] := by
      intro he
      rw [he] at h
      simp at h
    obtain ⟨c, hc⟩ := drawOne_of_deck_ne_nil rand room hne
    have hlen : n ≤ ({ room with deck := room.deck.dropLast } : Room).deck.length := by
      simp only [List.length_dropLast]
      omega
    have hrec := drawCards_length rand n { room with deck := room.deck.dropLast } hlen
    unfold drawCards
    rw [hc]
    simpa using hrec

/-- C1: in `roomC1` (three players, direction +1, current index 0) the
current player A plays a draw-two.  The victim B (index 1) does draw
exactly 2 cards (hand 2 → 4), but the turn does not pass to the player
immediately after the victim (index 2): the handler advances once inside
the draw-two branch and then performs the normal advance plus the
`skipNext` advance, landing on index 0 — the actor plays again and C's
turn is bypassed as well. -/
theorem c1_draw2_turn_overshoot :
    (playCard r0 roomC1 1 10 none).2 = PlayResult.ok ∧
    ((playCard r0 roomC1 1 10 none).1.players.get? 1).map (fun p => p.cards.length) = some 4 ∧
    (playCard r0 roomC1 1 10 none).1.currentPlayerIndex = 0 ∧
    ¬ (playCard r0 roomC1 1 10 none).1.currentPlayerIndex = 2 := by decide

/-- C3: the vulnerability flag / pending timer invariant is broken in two
reachable ways.  First, when the vulnerable player B (flag set, timer
pending) disconnects, the removed player record still carries
`canBeCaught = true` and a pending timer — the handler never cancels it.
Second, when A wins while B is vulnerable, the win path cancels B's timer
but leaves B's `canBeCaught` flag set, so the flag is true with no active
timer. -/
theorem c3_vulnerability_timer_leaks :
    ((handleDisconnect roomC3 2).2.map fun p => (p.canBeCaught, p.catchTimeout)) =
      some (true, true) ∧
    ((playCard r0 roomC2 1 10 none).2 = PlayResult.gameOver 1) ∧
    ((playCard r0 roomC2 1 10 none).1.players.map fun p => (p.canBeCaught, p.catchTimeout)) =
      [(false, false), (true, false), (false, false)] := by decide

/-- C4 counterexample: in `roomC4` the target B is Vulnerable (flag set,
timer pending) but holds three cards; A's catch does not succeed — it is
rejected with the too-late error and the room is unchanged — refuting
"a catch succeeds exactly when the target is Vulnerable". -/
theorem c4_vulnerable_but_uncatchable :
    ((roomC4.players.get? 1).map fun p => (p.canBeCaught, p.catchTimeout, p.cards.length)) =
      some (true, true, 3) ∧
    catchUno r0 roomC4 1 2 = (roomC4, CatchResult.tooLate) := by decide

/-- C5 counterexample: removing the player at index 0 of a four-player
in-progress room with `currentPlayerIndex = 2` leaves the index at 2 (the
claimed decrement to 1 does not happen), silently shifting whose turn it
is. -/
theorem c5_no_decrement_on_removal :
    roomC5.currentPlayerIndex = 2 ∧
    ((handleDisconnect roomC5 1).1.map fun r => r.players.map Player.id) = some [2, 3, 4] ∧
    ((handleDisconnect roomC5 1).1.map fun r => r.currentPlayerIndex) = some 2 ∧
    ¬ ((handleDisconnect roomC5 1).1.map fun r => r.currentPlayerIndex) = some 1 := by decide

/-- C6 counterexample: in the two-player room `roomC6` the current player A
(index 0) plays a reverse; the resulting current player index is again 0,
so the player who played the reverse immediately replays — refuting "the
player who played the reverse never immediately replays". -/
theorem c6_reverser_replays :
    roomC6.players.length = 2 ∧
    roomC6.currentPlayerIndex = 0 ∧
    (playCard r0 roomC6 1 10 none).2 = PlayResult.ok ∧
    (playCard r0 roomC6 1 10 none).1.direction = -1 ∧
    (playCard r0 roomC6 1 10 none).1.currentPlayerIndex = 0 := by decide

/-- C7 counterexample: A plays the non-wild green draw-two while the play
payload carries `chosenColor = red`; the handler stores red as the declared
color instead of clearing it — the update is a function of the payload, not
of the played card. -/
theorem c7_nonwild_play_keeps_payload_color :
    ((roomC1.players.get? 0).map fun p => p.cards.map Card.color) =
      some [Color.green, Color.red] ∧
    (playCard r0 roomC1 1 10 (some Color.red)).2 = PlayResult.ok ∧
    (playCard r0 roomC1 1 10 (some Color.red)).1.chosenColor = some Color.red := by decide

/-- C8 counterexample: with the random stream `r0` the generated code is
"AAAAAA", which is already the code of an active room in `rooms0`;
`createRoom` performs no collision check, allocates the same code anyway,
and the old room is overwritten in the registry. -/
theorem c8_code_collision_overwrites :
    generateRoomCode r0 = "AAAAAA" ∧
    roomsGet rooms0 "AAAAAA" = some dummyRoom ∧
    (createRoom r0 rooms0 7 "N").2 = "AAAAAA" ∧
    ¬ roomsGet (createRoom r0 rooms0 7 "N").1 "AAAAAA" = some dummyRoom := by decide

/-- C10: with a running game, catcher and target resolved and distinct, a
catch succeeds if and only if the target's vulnerability flag is set AND
the target holds exactly one card; a Vulnerable target whose hand has
grown beyond one card cannot be caught — the attempt fails with the
too-late outcome and changes no state. -/
theorem c10_catch_requires_single_card
    (rand : Nat → Nat) (room : Room) (a t : Nat)
    (catcher : Player) (ti : Nat) (target : Player)
    (hs : room.gameStarted = true)
    (hc : (room.players.find? fun p => p.id == a) = some catcher)
    (ht : (room.players.findIdx? fun p => p.id == t) = some ti)
    (hg : room.players.get? ti = some target)
    (hne : catcher.id ≠ target.id) :
    ((catchUno rand room a t).2 = CatchResult.caught ↔
      target.canBeCaught = true ∧ target.cards.length = 1) ∧
    (target.canBeCaught = true → target.cards.length ≠ 1 →
      catchUno rand room a t = (room, CatchResult.tooLate)) := by
  simp only [catchUno, hs, hc, ht, hg, if_neg hne]
  by_cases hcond : target.canBeCaught = true ∧ target.cards.length = 1
  · rw [if_neg (by simp), if_pos hcond]
    exact ⟨by simp [hcond], fun _ hlen => absurd hcond.2 hlen⟩
  · rw [if_neg (by simp), if_neg hcond]
    constructor
    · constructor
      · intro h
        simp at h
      · intro h
        exact absurd h hcond
    · intro hflag hlen
      rfl

/-- C10 witness: in `roomC4` the vulnerable three-card player B cannot be
caught; the attempt is rejected too-late with no state change. -/
theorem c10_catch_requires_single_card_witness :
    catchUno r0 roomC4 1 2 = (roomC4, CatchResult.tooLate) :=
  (c10_catch_requires_single_card r0 roomC4 1 2 pA 1 pBvuln3
    (by decide) (by decide) (by decide) (by decide) (by decide)).2
    (by decide) (by decide)

/-- C4 (amended): with a running game and resolved catcher and target, a
self-catch is rejected outright; a catch whose target is not both
Vulnerable and holding exactly one card fails too-late with no state
change; and a catch of a Vulnerable one-card target succeeds — the flag is
cleared, the timer cancelled, the target draws exactly 2 penalty cards and
every other player is untouched. -/
theorem c4_catch_outcomes
    (rand : Nat → Nat) (room : Room) (a t : Nat)
    (catcher : Player) (ti : Nat) (target : Player)
    (hs : room.gameStarted = true)
    (hc : (room.players.find? fun p => p.id == a) = some catcher)
    (ht : (room.players.findIdx? fun p => p.id == t) = some ti)
    (hg : room.players.get? ti = some target) :
    (catcher.id = target.id → catchUno rand room a t = (room, CatchResult.selfCatch)) ∧
    (catcher.id ≠ target.id → ¬ (target.canBeCaught = true ∧ target.cards.length = 1) →
      catchUno rand room a t = (room, CatchResult.tooLate)) ∧
    (catcher.id ≠ target.id → target.canBeCaught = true → target.cards.length = 1 →
      2 ≤ room.deck.length →
      (catchUno rand room a t).2 = CatchResult.caught ∧
      ((catchUno rand room a t).1.players.get? ti).map
          (fun p => (p.canBeCaught, p.catchTimeout, p.cards.length)) =
        some (false, false, target.cards.length + 2) ∧
      (∀ j, j ≠ ti → (catchUno rand room a t).1.players.get? j = room.players.get? j)) := by
  have hGuard : ¬ (room.gameStarted = false) := by rw [hs]; simp
  refine ⟨?_, ?_, ?_⟩
  · intro heq
    simp only [catchUno, hc, ht, hg, if_neg hGuard, if_pos heq]
  · intro hne hcond
    simp only [catchUno, hc, ht, hg, if_neg hGuard, if_neg hne, if_neg hcond]
  · intro hne hflag hlen hdeck
    simp only [catchUno, hc, ht, hg, if_neg hGuard, if_neg hne]
    rw [if_pos ⟨hflag, hlen⟩]
    have hti : ti < room.players.length := get?_some_lt hg
    have hplayers := (drawCards_seats rand 2 { room with players := room.players.set ti ({ target with canBeCaught := false, catchTimeout := false }) }).1
    have hdlen := drawCards_length rand 2 { room with players := room.players.set ti ({ target with canBeCaught := false, catchTimeout := false }) } hdeck
    have hti2 : ti < (room.players.set ti ({ target with canBeCaught := false, catchTimeout := false })).length := by
      rw [List.length_set]
      exact hti
    refine ⟨rfl, ?_, ?_⟩
    · rw [hplayers]
      dsimp only
      rw [get?_set_self _ _ _ hti2]
      simp [List.length_append, hdlen]
    · intro j hj
      rw [hplayers]
      dsimp only
      rw [get?_set_of_ne _ _ _ _ (fun h => hj h.symm),
        get?_set_of_ne _ _ _ _ (fun h => hj h.symm)]

/-- C4 witness: in `roomC4b` the vulnerable one-card player B is caught by
A; the catch succeeds, clears the flag and timer, and B draws exactly two
penalty cards. -/
theorem c4_catch_outcomes_witness :
    (catchUno r0 roomC4b 1 2).2 = CatchResult.caught ∧
    ((catchUno r0 roomC4b 1 2).1.players.get? 1).map
        (fun p => (p.canBeCaught, p.catchTimeout, p.cards.length)) =
      some (false, false, 3) := by
  have h := (c4_catch_outcomes r0 roomC4b 1 2 pA 1 pBvuln1
    (by decide) (by decide) (by decide) (by decide)).2.2
    (by decide) (by decide) (by decide) (by decide)
  exact ⟨h.1, h.2.1⟩

theorem clampIdx_lt (L : List Player) (cur : Nat) (h : L ≠ []) :
    (if L.length ≤ cur then 0 else cur) < L.length := by
  by_cases hc : L.length ≤ cur
  · rw [if_pos hc]
    exact List.length_pos.mpr h
  · rw [if_neg hc]
    exact Nat.not_le.mp hc

/-- C5 (amended): removing a player from an in-progress room recomputes
`currentPlayerIndex` only by clamping it to 0 when it is out of bounds for
the shrunken player list; it is never decremented when the removed player's
index precedes it.  The index still always lands on a live player. -/
theorem c5_clamp_only (room : Room) (a : Nat) (i : Nat)
    (hs : room.gameStarted = true)
    (hfi : (room.players.findIdx? fun p => p.id == a) = some i)
    (hlen2 : 2 ≤ room.players.length) :
    ∃ room2, (handleDisconnect room a).1 = some room2 ∧
      room2.players.length = room.players.length - 1 ∧
      room2.currentPlayerIndex =
        (if room2.players.length ≤ room.currentPlayerIndex then 0
         else room.currentPlayerIndex) ∧
      room2.currentPlayerIndex < room2.players.length := by
  have hi : i < room.players.length := (List.findIdx?_eq_some_iff_findIdx_eq.mp hfi).1
  have hp : room.players.get? i = some room.players[i] := by
    rw [List.get?_eq_getElem?]
    exact List.getElem?_eq_some_iff.mpr ⟨hi, rfl⟩
  have hrlen : (room.players.eraseIdx i).length = room.players.length - 1 := by
    rw [List.length_eraseIdx, if_pos hi]
  simp only [handleDisconnect, hfi, hp, hs, true_and]
  rw [hrlen, if_neg (by omega)]
  cases hre : room.players.eraseIdx i with
  | nil =>
    rw [hre] at hrlen
    simp at hrlen
    omega
  | cons q qs =>
    have hqs : qs.length + 1 = room.players.length - 1 := by
      have := hrlen
      rw [hre] at this
      simpa using this
    cases hHost : room.players[i].isHost with
    | true =>
      simp only [hHost, hre]
      simp only [if_true]
      refine ⟨_, rfl, ?_, ?_, ?_⟩
      · simpa using hqs
      · dsimp only
      · dsimp only
        exact clampIdx_lt _ _ (by simp)
    | false =>
      simp only [hHost, hre]
      rw [if_neg (by simp)]
      refine ⟨_, rfl, ?_, ?_, ?_⟩
      · simpa using hqs
      · dsimp only
      · dsimp only
        exact clampIdx_lt _ _ (by simp)

/-- C5 witness: removing player 1 (index 0) from the four-player
`roomC5` with `currentPlayerIndex = 2` leaves the index in bounds (only
the clamp rule applies). -/
theorem c5_clamp_only_witness :
    ∃ room2, (handleDisconnect roomC5 1).1 = some room2 ∧
      room2.players.length = roomC5.players.length - 1 ∧
      room2.currentPlayerIndex =
        (if room2.players.length ≤ roomC5.currentPlayerIndex then 0
         else roomC5.currentPlayerIndex) ∧
      room2.currentPlayerIndex < room2.players.length :=
  c5_clamp_only roomC5 1 0 (by decide) (by decide) (by decide)

theorem get?_map_eq {α β : Type} (f : α → β) (l : List α) (i : Nat) :
    (l.map f).get? i = (l.get? i).map f := by
  rw [List.get?_eq_getElem?, List.get?_eq_getElem?, List.getElem?_map]

theorem playCardCheck_go (room : Room) (a cid : Nat)
    (player : Player) (ci : Nat) (card : Card) (top : Card)
    (hs : room.gameStarted = true)
    (hfi : (room.players.findIdx fun p => p.id == a) = room.currentPlayerIndex)
    (hget : room.players.get? room.currentPlayerIndex = some player)
    (hci : (player.cards.findIdx? fun c => c.id == cid) = some ci)
    (hcard : player.cards.get? ci = some card)
    (htop : room.discardPile.getLast? = some top)
    (hlegal : canPlayCard card top room.chosenColor = true) :
    playCardCheck room a cid = PlayCheck.go player ci card := by
  have hGuard : ¬ (room.gameStarted = false) := by rw [hs]; simp
  have hTurn : ¬ ((room.players.findIdx fun p => p.id == a) ≠ room.currentPlayerIndex) := by
    rw [hfi]
    simp
  have hLegal2 : ¬ (canPlayCard card top room.chosenColor = false) := by rw [hlegal]; simp
  simp only [playCardCheck, if_neg hGuard, if_neg hTurn, hget, hci, hcard, htop,
    if_neg hLegal2]

theorem playCardSpecial_snd (rand : Nat → Nat) (room : Room) (card : Card) :
    (playCardSpecial rand room card).2 = PlayResult.ok := rfl

theorem playCardApply_snd (rand : Nat → Nat) (room : Room) (pi : Nat)
    (player : Player) (ci : Nat) (card : Card) (ch : Option Color) :
    (playCardApply rand room pi player ci card ch).2 = PlayResult.gameOver player.id ∨
    (playCardApply rand room pi player ci card ch).2 = PlayResult.ok := by
  by_cases h : (player.cards.eraseIdx ci).length = 0
  · left
    simp only [playCardApply, if_pos h]
  · right
    simp only [playCardApply, if_neg h]
    exact playCardSpecial_snd rand _ card

theorem playCard_fst_of_err (rand : Nat → Nat) (room : Room) (a cid : Nat)
    (ch : Option Color)
    (hok : (playCard rand room a cid ch).2 ≠ PlayResult.ok)
    (hwin : ∀ w, (playCard rand room a cid ch).2 ≠ PlayResult.gameOver w) :
    (playCard rand room a cid ch).1 = room := by
  cases hchk : playCardCheck room a cid with
  | fail e => simp only [playCard, hchk]
  | go player ci card =>
    have hpc : playCard rand room a cid ch =
        playCardApply rand room room.currentPlayerIndex player ci card ch := by
      simp only [playCard, hchk]
    rcases playCardApply_snd rand room room.currentPlayerIndex player ci card ch with h | h
    · rw [hpc] at hwin
      exact absurd h (hwin player.id)
    · rw [hpc] at hok
      exact absurd h hok

theorem catchUno_fst_of_ne (rand : Nat → Nat) (room : Room) (a t : Nat)
    (h : (catchUno rand room a t).2 ≠ CatchResult.caught) :
    (catchUno rand room a t).1 = room := by
  revert h
  unfold catchUno
  split
  · intro _
    rfl
  · split
    · split
      · intro _
        rfl
      · split
        · intro _
          rfl
        · split
          · intro h
            exact absurd rfl h
          · intro _
            rfl
    · intro _
      rfl

theorem drawCard_fst_of_err (rand : Nat → Nat) (room : Room) (a : Nat)
    (h : (drawCardAction rand room a).2 = DrawActionResult.noRoom ∨
         (drawCardAction rand room a).2 = DrawActionResult.notYourTurn) :
    (drawCardAction rand room a).1 = room := by
  revert h
  unfold drawCardAction
  split
  · intro _
    rfl
  · dsimp only
    split
    · intro _
      rfl
    · split
      · intro _
        rfl
      · split
        · intro h
          rcases h with h | h <;> exact absurd h (by simp)
        · intro h
          rcases h with h | h <;> exact absurd h (by simp)

theorem joinRoom_fst_of_ne (rooms : List (String × Room)) (code : String)
    (sid : Nat) (pname : String)
    (h : (joinRoom rooms code sid pname).2 ≠ JoinResult.joined) :
    (joinRoom rooms code sid pname).1 = rooms := by
  revert h
  unfold joinRoom
  split
  · intro _
    rfl
  · split
    · intro _
      rfl
    · split
      · intro _
        rfl
      · intro h
        exact absurd rfl h

theorem startGame_fst_of_err (rand : Nat → Nat) (room : Room) (a : Nat)
    (h : (startGame rand room a).2 = StartResult.notHost ∨
         (startGame rand room a).2 = StartResult.notEnoughPlayers) :
    (startGame rand room a).1 = room := by
  revert h
  unfold startGame
  split
  · intro _
    rfl
  · split
    · intro _
      rfl
    · split
      · intro _
        rfl
      · dsimp only
        split
        · intro h
          rcases h with h | h <;> exact absurd h (by simp)
        · intro h
          rcases h with h | h <;> exact absurd h (by simp)

/-- C2: an accepted play that empties the acting player's hand ends the
game at once: the result is game-over for that player, the phase leaves
InProgress, the emptied player is recorded as winner, the deck is
untouched (nobody draws, not even for a winning draw-two / wild-draw-four),
the turn does not advance, direction is unchanged, every other player's
hand is unchanged, and no vulnerability or declare flag changes for
anyone. -/
theorem c2_win_preempts_side_effects
    (rand : Nat → Nat) (room : Room) (a cid : Nat) (ch : Option Color)
    (player : Player) (ci : Nat) (card : Card) (top : Card)
    (hs : room.gameStarted = true)
    (hfi : (room.players.findIdx fun p => p.id == a) = room.currentPlayerIndex)
    (hget : room.players.get? room.currentPlayerIndex = some player)
    (hci : (player.cards.findIdx? fun c => c.id == cid) = some ci)
    (hcard : player.cards.get? ci = some card)
    (htop : room.discardPile.getLast? = some top)
    (hlegal : canPlayCard card top room.chosenColor = true)
    (hone : player.cards.length = 1) :
    (playCard rand room a cid ch).2 = PlayResult.gameOver player.id ∧
    (playCard rand room a cid ch).1.gameStarted = false ∧
    (playCard rand room a cid ch).1.winner = some ({ player with cards := [] }) ∧
    (playCard rand room a cid ch).1.deck = room.deck ∧
    (playCard rand room a cid ch).1.currentPlayerIndex = room.currentPlayerIndex ∧
    (playCard rand room a cid ch).1.direction = room.direction ∧
    (∀ j, j ≠ room.currentPlayerIndex →
      ((playCard rand room a cid ch).1.players.get? j).map Player.cards =
        (room.players.get? j).map Player.cards) ∧
    (∀ j, ((playCard rand room a cid ch).1.players.get? j).map
        (fun p => (p.canBeCaught, p.saidUno)) =
      (room.players.get? j).map (fun p => (p.canBeCaught, p.saidUno))) := by
  have hchk := playCardCheck_go room a cid player ci card top hs hfi hget hci hcard htop hlegal
  have hpc : playCard rand room a cid ch =
      playCardApply rand room room.currentPlayerIndex player ci card ch := by
    simp only [playCard, hchk]
  have hci0 : ci = 0 := by
    have := (List.findIdx?_eq_some_iff_findIdx_eq.mp hci).1
    omega
  subst hci0
  have hcards : player.cards = [card] := by
    cases hcl : player.cards with
    | nil =>
      rw [hcl] at hcard
      simp at hcard
    | cons x xs =>
      rw [hcl] at hone hcard
      simp only [List.length_cons] at hone
      have hxs : xs = [] := List.length_eq_zero.mp (by omega)
      simp only [List.get?] at hcard
      cases hcard
      rw [hxs]
  have hzero : (player.cards.eraseIdx 0).length = 0 := by
    rw [hcards]
    rfl
  have herase : player.cards.eraseIdx 0 = [] := by
    rw [hcards]
    rfl
  have hlt : room.currentPlayerIndex < room.players.length := get?_some_lt hget
  rw [hpc]
  simp only [playCardApply, if_pos hzero]
  simp only [herase]
  refine ⟨by trivial, by trivial, by trivial, by trivial, by trivial, by trivial, ?_, ?_⟩
  · intro j hj
    rw [get?_map_eq, get?_set_of_ne _ _ _ _ (fun h => hj h.symm)]
    cases room.players.get? j <;> rfl
  · intro j
    by_cases hj : j = room.currentPlayerIndex
    · subst hj
      rw [get?_map_eq, get?_set_self _ _ _ hlt, hget]
      rfl
    · rw [get?_map_eq, get?_set_of_ne _ _ _ _ (fun h => hj h.symm)]
      cases room.players.get? j <;> rfl

/-- C2 witness: in `roomC2` the current player A plays their sole card, a
green draw-two; the game ends at once with A as winner, the deck is
untouched, the turn does not move, and nobody's flags change. -/
theorem c2_win_preempts_side_effects_witness :
    (playCard r0 roomC2 1 10 none).2 = PlayResult.gameOver 1 ∧
    (playCard r0 roomC2 1 10 none).1.gameStarted = false ∧
    (playCard r0 roomC2 1 10 none).1.deck = roomC2.deck ∧
    (playCard r0 roomC2 1 10 none).1.currentPlayerIndex = roomC2.currentPlayerIndex := by
  have h := c2_win_preempts_side_effects r0 roomC2 1 10 none pAwin 0
    (mkCard Color.green Value.draw2 10) (mkCard Color.green (Value.num 5) 80)
    (by decide) (by decide) (by decide) (by decide) (by decide) (by decide)
    (by decide) (by decide)
  exact ⟨h.1, h.2.1, h.2.2.2.1, h.2.2.2.2.1⟩

/-- C9: every rejected action leaves the state exactly as it was: a
rejected play, draw, catch, join or start mutates neither the room nor the
registry — all validation failures are detected before any mutation. -/
theorem c9_rejected_actions_pure :
    (∀ (rand : Nat → Nat) (room : Room) (a cid : Nat) (ch : Option Color),
      ((playCard rand room a cid ch).2 = PlayResult.noRoom ∨
       (playCard rand room a cid ch).2 = PlayResult.notYourTurn ∨
       (playCard rand room a cid ch).2 = PlayResult.cardNotFound ∨
       (playCard rand room a cid ch).2 = PlayResult.invalidCard ∨
       (playCard rand room a cid ch).2 = PlayResult.internalFault) →
      (playCard rand room a cid ch).1 = room) ∧
    (∀ (rand : Nat → Nat) (room : Room) (a : Nat),
      ((drawCardAction rand room a).2 = DrawActionResult.noRoom ∨
       (drawCardAction rand room a).2 = DrawActionResult.notYourTurn) →
      (drawCardAction rand room a).1 = room) ∧
    (∀ (rand : Nat → Nat) (room : Room) (a t : Nat),
      (catchUno rand room a t).2 ≠ CatchResult.caught →
      (catchUno rand room a t).1 = room) ∧
    (∀ (rooms : List (String × Room)) (code : String) (sid : Nat) (pname : String),
      (joinRoom rooms code sid pname).2 ≠ JoinResult.joined →
      (joinRoom rooms code sid pname).1 = rooms) ∧
    (∀ (rand : Nat → Nat) (room : Room) (a : Nat),
      ((startGame rand room a).2 = StartResult.notHost ∨
       (startGame rand room a).2 = StartResult.notEnoughPlayers) →
      (startGame rand room a).1 = room) := by
  refine ⟨?_, drawCard_fst_of_err, catchUno_fst_of_ne, joinRoom_fst_of_ne,
    startGame_fst_of_err⟩
  intro rand room a cid ch h
  apply playCard_fst_of_err
  · rcases h with h | h | h | h | h <;> rw [h] <;> simp
  · intro w
    rcases h with h | h | h | h | h <;> rw [h] <;> simp

/-- C9 witness: a play out of turn is rejected and leaves `roomC1`
untouched. -/
theorem c9_rejected_actions_pure_witness :
    (playCard r0 roomC1 2 20 none).1 = roomC1 :=
  c9_rejected_actions_pure.1 r0 roomC1 2 20 none (Or.inr (Or.inl (by decide)))

theorem forceDraw_chosenColor (rand : Nat → Nat) (room : Room) (n : Nat) :
    (forceDraw rand room n).chosenColor = room.chosenColor := by
  unfold forceDraw
  dsimp only
  split
  · rfl
  · exact (drawCards_seats rand n _).2.2.2.1

theorem playCardSpecial_chosenColor (rand : Nat → Nat) (room : Room) (card : Card) :
    (playCardSpecial rand room card).1.chosenColor = room.chosenColor := by
  cases hv : card.value with
  | num n =>
    simp only [playCardSpecial, hv]
    split <;> rfl
  | skip =>
    simp only [playCardSpecial, hv]
    split <;> rfl
  | reverse =>
    simp only [playCardSpecial, hv]
    split <;> rfl
  | wild =>
    simp only [playCardSpecial, hv]
    split <;> rfl
  | draw2 =>
    simp only [playCardSpecial, hv]
    split <;> exact forceDraw_chosenColor rand room 2
  | wild_draw4 =>
    simp only [playCardSpecial, hv]
    split <;> exact forceDraw_chosenColor rand room 4

theorem playCardApply_chosenColor (rand : Nat → Nat) (room : Room) (pi : Nat)
    (player : Player) (ci : Nat) (card : Card) (ch : Option Color) :
    (playCardApply rand room pi player ci card ch).1.chosenColor = ch := by
  by_cases h : (player.cards.eraseIdx ci).length = 0
  · simp only [playCardApply, if_pos h]
  · simp only [playCardApply, if_neg h]
    rw [playCardSpecial_chosenColor]

theorem playCardCheck_fail_cases (room : Room) (a cid : Nat) (e : PlayResult)
    (h : playCardCheck room a cid = PlayCheck.fail e) :
    e = PlayResult.noRoom ∨ e = PlayResult.notYourTurn ∨
    e = PlayResult.cardNotFound ∨ e = PlayResult.internalFault ∨
    e = PlayResult.invalidCard := by
  revert h
  unfold playCardCheck
  split
  · intro h
    injection h with he
    exact Or.inl he.symm
  · split
    · intro h
      injection h with he
      exact Or.inr (Or.inl he.symm)
    · split
      · intro h
        injection h with he
        exact Or.inr (Or.inl he.symm)
      · split
        · intro h
          injection h with he
          exact Or.inr (Or.inr (Or.inl he.symm))
        · split
          · intro h
            injection h with he
            exact Or.inr (Or.inr (Or.inl he.symm))
          · split
            · intro h
              injection h with he
              exact Or.inr (Or.inr (Or.inr (Or.inl he.symm)))
            · split
              · intro h
                injection h with he
                exact Or.inr (Or.inr (Or.inr (Or.inr he.symm)))
              · intro h
                simp at h

/-- C7 (amended): for every accepted play — normal or winning — the stored
declared color is exactly the `chosenColor` carried by the play payload
(null when absent), independent of the played card. -/
theorem c7_declared_color_from_payload
    (rand : Nat → Nat) (room : Room) (a cid : Nat) (ch : Option Color)
    (h : (playCard rand room a cid ch).2 = PlayResult.ok ∨
         ∃ w, (playCard rand room a cid ch).2 = PlayResult.gameOver w) :
    (playCard rand room a cid ch).1.chosenColor = ch := by
  cases hchk : playCardCheck room a cid with
  | fail e =>
    have hpc : playCard rand room a cid ch = (room, e) := by
      simp only [playCard, hchk]
    rw [hpc] at h
    rcases playCardCheck_fail_cases room a cid e hchk with he | he | he | he | he <;>
      subst he <;> rcases h with h | ⟨w, h⟩ <;> simp at h
  | go player ci card =>
    have hpc : playCard rand room a cid ch =
        playCardApply rand room room.currentPlayerIndex player ci card ch := by
      simp only [playCard, hchk]
    rw [hpc]
    exact playCardApply_chosenColor rand room room.currentPlayerIndex player ci card ch

/-- C7 witness: an accepted play with no payload color leaves the declared
color null. -/
theorem c7_declared_color_from_payload_witness :
    (playCard r0 roomC1 1 10 none).1.chosenColor = none :=
  c7_declared_color_from_payload r0 roomC1 1 10 none (Or.inl (by decide))

theorem two_step_back (i : Nat) (d : Int) (hi : i < 2) (hd : d = 1 ∨ d = -1) :
    ((((((i : Int) + -d + 2) % 2).toNat : Int) + -d + 2) % 2).toNat = i := by
  rcases hd with h | h <;> subst h <;> interval_cases i <;> decide

theorem playCardSpecial_reverse_two (rand : Nat → Nat) (room : Room) (card : Card)
    (hrev : card.value = Value.reverse) (h2 : room.players.length = 2)
    (hcur : room.currentPlayerIndex < 2)
    (hdir : room.direction = 1 ∨ room.direction = -1) :
    (playCardSpecial rand room card).1.direction = -room.direction ∧
    (playCardSpecial rand room card).1.currentPlayerIndex = room.currentPlayerIndex := by
  simp only [playCardSpecial, hrev]
  rw [if_pos (by simp [h2])]
  refine ⟨rfl, ?_⟩
  simp only [getNextPlayer, h2]
  exact two_step_back room.currentPlayerIndex room.direction hcur hdir

/-- C6 (amended): in a two-player in-progress room an accepted, non-winning
reverse play flips the direction and consumes a skip, so the current player
index is unchanged: the player who played the reverse immediately plays
again. -/
theorem c6_two_player_reverse
    (rand : Nat → Nat) (room : Room) (a cid : Nat) (ch : Option Color)
    (player : Player) (ci : Nat) (card : Card) (top : Card)
    (hs : room.gameStarted = true)
    (hfi : (room.players.findIdx fun p => p.id == a) = room.currentPlayerIndex)
    (hget : room.players.get? room.currentPlayerIndex = some player)
    (hci : (player.cards.findIdx? fun c => c.id == cid) = some ci)
    (hcard : player.cards.get? ci = some card)
    (htop : room.discardPile.getLast? = some top)
    (hlegal : canPlayCard card top room.chosenColor = true)
    (h2 : room.players.length = 2)
    (hcur : room.currentPlayerIndex < 2)
    (hdir : room.direction = 1 ∨ room.direction = -1)
    (hrev : card.value = Value.reverse)
    (hnotwin : player.cards.length ≠ 1) :
    (playCard rand room a cid ch).2 = PlayResult.ok ∧
    (playCard rand room a cid ch).1.direction = -room.direction ∧
    (playCard rand room a cid ch).1.currentPlayerIndex = room.currentPlayerIndex := by
  have hchk := playCardCheck_go room a cid player ci card top hs hfi hget hci hcard htop hlegal
  have hpc : playCard rand room a cid ch =
      playCardApply rand room room.currentPlayerIndex player ci card ch := by
    simp only [playCard, hchk]
  have hcilt : ci < player.cards.length := (List.findIdx?_eq_some_iff_findIdx_eq.mp hci).1
  have hlenerase : ¬ (player.cards.eraseIdx ci).length = 0 := by
    rw [List.length_eraseIdx, if_pos hcilt]
    omega
  rw [hpc]
  simp only [playCardApply, if_neg hlenerase]
  refine ⟨playCardSpecial_snd _ _ _, ?_, ?_⟩
  · refine (playCardSpecial_reverse_two rand _ card hrev ?_ ?_ ?_).1
    · simpa [List.length_set] using h2
    · exact hcur
    · exact hdir
  · refine (playCardSpecial_reverse_two rand _ card hrev ?_ ?_ ?_).2
    · simpa [List.length_set] using h2
    · exact hcur
    · exact hdir

/-- C6 witness: in the two-player `roomC6` the reverse play by A leaves A
as the current player. -/
theorem c6_two_player_reverse_witness :
    (playCard r0 roomC6 1 10 none).2 = PlayResult.ok ∧
    (playCard r0 roomC6 1 10 none).1.currentPlayerIndex = roomC6.currentPlayerIndex := by
  have h := c6_two_player_reverse r0 roomC6 1 10 none pArev 0
    (mkCard Color.green Value.reverse 10) (mkCard Color.green (Value.num 5) 80)
    (by decide) (by decide) (by decide) (by decide) (by decide) (by decide)
    (by decide) (by decide) (by decide) (Or.inl (by decide)) (by decide) (by decide)
  exact ⟨h.1, h.2.2⟩

theorem find?_map_replace (l : List (String × Room)) (code : String) (r : Room) :
    ((l.map fun kv => if kv.1 == code then (code, r) else kv).find?
        fun kv => kv.1 == code) =
      if l.any (fun kv => kv.1 == code) then some (code, r) else none := by
  induction l with
  | nil => rfl
  | cons kv t ih =>
    cases hk : kv.1 == code with
    | true =>
      have h1 : (if (kv.1 == code) = true then (code, r) else kv) = (code, r) :=
        if_pos hk
      rw [List.map_cons, h1, List.find?_cons, List.any_cons, hk]
      simp
    | false =>
      have h1 : (if (kv.1 == code) = true then (code, r) else kv) = kv :=
        if_neg (by simp [hk])
      rw [List.map_cons, h1, List.find?_cons, List.any_cons, hk]
      simp only [hk, Bool.false_or]
      exact ih

theorem find?_append_none {p : String × Room → Bool} {l1 : List (String × Room)}
    (l2 : List (String × Room)) (h : l1.find? p = none) :
    (l1 ++ l2).find? p = l2.find? p := by
  induction l1 with
  | nil => rfl
  | cons kv t ih =>
    rw [List.find?_cons] at h
    rcases hp : p kv with _ | _
    · rw [hp] at h
      rw [List.cons_append, List.find?_cons, hp]
      exact ih h
    · rw [hp] at h
      exact absurd h (by simp)

theorem roomsGet_roomsSet (rooms : List (String × Room)) (code : String) (r : Room) :
    roomsGet (roomsSet rooms code r) code = some r := by
  unfold roomsGet roomsSet
  by_cases hany : rooms.any fun kv => kv.1 == code
  · rw [if_pos hany, find?_map_replace, if_pos hany]
    rfl
  · rw [if_neg hany, find?_append_none _ (List.find?_eq_none.mpr ?_)]
    · simp [List.find?]
    · intro kv hkv
      intro hp
      exact hany (List.any_eq_true.mpr ⟨kv, hkv, hp⟩)

/-- C8 (amended): `createRoom` allocates the code produced by the random
stream alone (no collision check against the registry is possible: the
generator does not consult it), registers the new room under that code, and
the new room is in the lobby phase with the creator as its sole player and
host. -/
theorem c8_createRoom_lobby_host (rand : Nat → Nat)
    (rooms : List (String × Room)) (sid : Nat) (pname : String) :
    (createRoom rand rooms sid pname).2 = generateRoomCode rand ∧
    ∃ r, roomsGet (createRoom rand rooms sid pname).1 (generateRoomCode rand) = some r ∧
      r.gameStarted = false ∧ r.winner = none ∧
      r.players = [newPlayer sid pname true] ∧
      (newPlayer sid pname true).isHost = true := by
  refine ⟨rfl, _, roomsGet_roomsSet rooms (generateRoomCode rand) _, rfl, rfl, rfl, rfl⟩

end UNO
